import Mathlib

/-!
Verification of the RAG gateway (src/main.py) against its specification.

The file embeds, as Lean definitions, the parts of the source that the
claims depend on:
  - a JSON value type modelling Python values produced by `json.loads`
    (integers only; floating-point numbers are out of scope),
  - the knowledge-base aggregation loop of `list_knowledge_bases_endpoint`,
  - the filter construction of `list_documents_endpoint`,
  - the multipart form data construction of `ingest_document_endpoint`,
  - a model of `json.dumps` (default options: ensure_ascii, separators
    with a space) and of `json.loads`,
  - the control flow of `get_api_response`, including the semantics of
    the `requests` library that the except-branch depends on
    (`RequestException.response` always exists and may be `None`;
    `Response.__bool__` is `self.ok`, i.e. the status code is below 400).
-/

namespace RagGateway

/-- JSON values as produced by Python's `json.loads`.  Objects are kept as
association lists in insertion order, mirroring Python dicts; numbers are
modelled as integers (no document in scope carries fractional numbers). -/
inductive Json where
  | null : Json
  | bool : Bool → Json
  | num : Int → Json
  | str : String → Json
  | arr : List Json → Json
  | obj : List (String × Json) → Json

/-- Python dict lookup `d.get(k)` on an association list with unique keys. -/
def jlookup (k : String) (l : List (String × Json)) : Option Json :=
  (l.find? (fun p => p.1 == k)).map (fun p => p.2)

/-- Python truthiness of a JSON value (`if kb_id:`):
`None`, `False`, `0`, `""`, `[]` and `\x7b\x7d` are falsy. -/
def truthy : Json → Bool
  | Json.null => false
  | Json.bool b => b
  | Json.num n => n != 0
  | Json.str s => s != ""
  | Json.arr l => !l.isEmpty
  | Json.obj l => !l.isEmpty

/-- Whether a JSON value is hashable in Python (usable as a dict key):
lists and dicts are not. -/
def pyHashable : Json → Bool
  | Json.arr _ => false
  | Json.obj _ => false
  | _ => true

/-- Python `==` on the scalar JSON values that can serve as dict keys.
Python booleans are integers, so `True == 1` and `False == 0`. -/
def pyKeyEq : Json → Json → Bool
  | Json.bool a, Json.bool b => a == b
  | Json.bool a, Json.num n => (if a then (1 : Int) else 0) == n
  | Json.num n, Json.bool b => n == (if b then (1 : Int) else 0)
  | Json.num n, Json.num m => n == m
  | Json.str s, Json.str t => s == t
  | Json.null, Json.null => true
  | _, _ => false

/-! ## Knowledge-base aggregation (src/main.py, list_knowledge_bases_endpoint, lines 227-239) -/

/-- Lines 230-231: `metadata = doc.get("metadata", \x7b\x7d)` followed by
`metadata.get(...)`.  Returns the key/value pairs of the metadata dict, or
`none` when Python would raise an `AttributeError` (`.get` called on a
non-dict document, or on a non-dict `metadata` value). -/
def docMeta : Json → Option (List (String × Json))
  | Json.obj docKvs =>
    match (jlookup "metadata" docKvs).getD (Json.obj []) with
    | Json.obj metadata => some metadata
    | _ => none
  | _ => none

/-- The `metadata.get("knowledgeBase_id")` result of a document: outer
`none` when extraction raises, inner `none` when the key is absent. -/
def kbField (doc : Json) : Option (Option Json) :=
  (docMeta doc).map (jlookup "knowledgeBase_id")

/-- Lines 234-238: the summary dict stored in `kb_dict` for a new id. -/
def summarize (kb_id : Json) (metadata : List (String × Json)) : Json :=
  Json.obj [("knowledgeBase_id", kb_id),
            ("title", (jlookup "kb_title" metadata).getD (Json.str "Unknown Title")),
            ("creation_time", (jlookup "kb_creation_time" metadata).getD (Json.str "Unknown Time"))]

/-- Lines 229-238: the `for doc in documents:` loop.  `kb_dict` is the
insertion-ordered Python dict, kept as a key/summary association list.
`none` models a raised exception: an `AttributeError` from `.get` on a
non-dict, or a `TypeError` from using an unhashable value as a dict key
in `kb_id not in kb_dict`. -/
def aggLoop : List Json → List (Json × Json) → Option (List (Json × Json))
  | [], kb_dict => some kb_dict
  | doc :: rest, kb_dict =>
    match docMeta doc with
    | none => none
    | some metadata =>
      match jlookup "knowledgeBase_id" metadata with
      | none => aggLoop rest kb_dict
      | some kb_id =>
        if truthy kb_id then
          if pyHashable kb_id then
            if kb_dict.any (fun p => pyKeyEq kb_id p.1) then
              aggLoop rest kb_dict
            else
              aggLoop rest (kb_dict ++ [(kb_id, summarize kb_id metadata)])
          else none
        else aggLoop rest kb_dict

/-- Lines 227-239: aggregation of a document list into knowledge-base
summaries, `list(kb_dict.values())`.  `none` models a raised exception. -/
def list_knowledge_bases_agg (documents : List Json) : Option (List Json) :=
  (aggLoop documents []).map (List.map Prod.snd)

/-- Spec-side description of the aggregation (from the claim's words):
walk the documents in order keeping the list of already-seen ids; a
document whose metadata carries a truthy, not-yet-seen `knowledgeBase_id`
contributes one summary built from that document alone; every other
document contributes nothing.  Output is ordered by first occurrence. -/
def specKbSummaries : List Json → List Json → List Json
  | [], _ => []
  | doc :: rest, seen =>
    match docMeta doc with
    | none => specKbSummaries rest seen
    | some metadata =>
      match jlookup "knowledgeBase_id" metadata with
      | none => specKbSummaries rest seen
      | some kb_id =>
        if truthy kb_id then
          if seen.any (fun k => pyKeyEq kb_id k) then
            specKbSummaries rest seen
          else
            summarize kb_id metadata :: specKbSummaries rest (seen ++ [kb_id])
        else specKbSummaries rest seen

/-! ## Aggregation lemmas -/

/-- Membership test over the keys of the accumulated dict, rephrased
from the projected key list to the pair list. -/
lemma any_map_fst (kb_id : Json) (l : List (Json × Json)) :
    ((l.map Prod.fst).any fun k => pyKeyEq kb_id k) = l.any fun p => pyKeyEq kb_id p.1 := by
  induction l with
  | nil => rfl
  | cons a l ihl => simp [List.any_cons, ihl]

/-- Loop invariant: a successful run of the source loop extends the
accumulated summaries exactly by the spec-side description, seeded with
the keys already in the dict. -/
lemma aggLoop_spec (docs : List Json) : ∀ kb_dict res, aggLoop docs kb_dict = some res →
    res.map Prod.snd = kb_dict.map Prod.snd ++ specKbSummaries docs (kb_dict.map Prod.fst) := by
  induction docs with
  | nil =>
    intro kb_dict res h
    simp only [aggLoop, Option.some.injEq] at h
    subst h
    simp [specKbSummaries]
  | cons doc rest ih =>
    intro kb_dict res h
    cases hm : docMeta doc with
    | none => simp [aggLoop, hm] at h
    | some metadata =>
      cases hk : jlookup "knowledgeBase_id" metadata with
      | none =>
        simp only [aggLoop, hm, hk] at h
        simp only [specKbSummaries, hm, hk]
        exact ih kb_dict res h
      | some kb_id =>
        have hmem := any_map_fst kb_id kb_dict
        by_cases ht : truthy kb_id = true
        · by_cases hh : pyHashable kb_id = true
          · by_cases hin : (kb_dict.any fun p => pyKeyEq kb_id p.1) = true
            · simp only [aggLoop, hm, hk, ht, hh, hin, eq_self_iff_true, if_true] at h
              simp only [specKbSummaries, hm, hk, ht, hmem, hin, eq_self_iff_true, if_true]
              exact ih kb_dict res h
            · rw [Bool.not_eq_true] at hin
              simp only [aggLoop, hm, hk, ht, hh, hin, eq_self_iff_true, if_true,
                Bool.false_eq_true, if_false] at h
              simp only [specKbSummaries, hm, hk, ht, hmem, hin, eq_self_iff_true, if_true,
                Bool.false_eq_true, if_false]
              have h2 := ih _ res h
              simpa [List.map_append, List.append_assoc] using h2
          · rw [Bool.not_eq_true] at hh
            simp [aggLoop, hm, hk, ht, hh] at h
        · rw [Bool.not_eq_true] at ht
          simp only [aggLoop, hm, hk, ht, Bool.false_eq_true, if_false] at h
          simp only [specKbSummaries, hm, hk, ht, Bool.false_eq_true, if_false]
          exact ih kb_dict res h

/-- Successful aggregation agrees with the spec-side description. -/
lemma agg_eq_spec {documents out : List Json}
    (h : list_knowledge_bases_agg documents = some out) :
    out = specKbSummaries documents [] := by
  unfold list_knowledge_bases_agg at h
  cases hr : aggLoop documents [] with
  | none => rw [hr] at h; exact absurd h (by simp)
  | some res =>
    rw [hr] at h
    simp only [Option.map_some', Option.some.injEq] at h
    subst h
    simpa using aggLoop_spec documents [] res hr

/-- A document whose extracted `knowledgeBase_id` is absent is skipped by
the loop without touching the dict. -/
lemma aggLoop_skip_absent {doc : Json} (h : kbField doc = some none)
    (rest : List Json) (kb_dict : List (Json × Json)) :
    aggLoop (doc :: rest) kb_dict = aggLoop rest kb_dict := by
  unfold kbField at h
  cases hm : docMeta doc with
  | none => rw [hm] at h; exact absurd h (by simp)
  | some metadata =>
    rw [hm] at h
    simp only [Option.map_some', Option.some.injEq] at h
    simp only [aggLoop, hm, h]

/-- A document whose extracted `knowledgeBase_id` is falsy is skipped by
the loop without touching the dict. -/
lemma aggLoop_skip_falsy {doc v : Json} (h : kbField doc = some (some v))
    (hv : truthy v = false) (rest : List Json) (kb_dict : List (Json × Json)) :
    aggLoop (doc :: rest) kb_dict = aggLoop rest kb_dict := by
  unfold kbField at h
  cases hm : docMeta doc with
  | none => rw [hm] at h; exact absurd h (by simp)
  | some metadata =>
    rw [hm] at h
    simp only [Option.map_some', Option.some.injEq] at h
    simp only [aggLoop, hm, h, hv, Bool.false_eq_true, if_false]

/-- Removing a skipped document anywhere in the list leaves the loop
result unchanged. -/
lemma aggLoop_insert_skip {doc : Json}
    (hskip : ∀ rest kb_dict, aggLoop (doc :: rest) kb_dict = aggLoop rest kb_dict) :
    ∀ xs ys kb_dict, aggLoop (xs ++ doc :: ys) kb_dict = aggLoop (xs ++ ys) kb_dict := by
  intro xs
  induction xs with
  | nil => intro ys kb_dict; simpa using hskip ys kb_dict
  | cons x xs ih =>
    intro ys kb_dict
    simp only [List.cons_append]
    cases hm : docMeta x with
    | none => simp [aggLoop, hm]
    | some metadata =>
      cases hk : jlookup "knowledgeBase_id" metadata with
      | none =>
        simp only [aggLoop, hm, hk]
        exact ih ys kb_dict
      | some kb_id =>
        by_cases ht : truthy kb_id = true
        · by_cases hh : pyHashable kb_id = true
          · by_cases hin : (kb_dict.any fun p => pyKeyEq kb_id p.1) = true
            · simp only [aggLoop, hm, hk, ht, hh, hin, eq_self_iff_true, if_true]
              exact ih ys kb_dict
            · rw [Bool.not_eq_true] at hin
              simp only [aggLoop, hm, hk, ht, hh, hin, eq_self_iff_true, if_true,
                Bool.false_eq_true, if_false]
              exact ih ys _
          · rw [Bool.not_eq_true] at hh
            simp [aggLoop, hm, hk, ht, hh]
        · rw [Bool.not_eq_true] at ht
          simp only [aggLoop, hm, hk, ht, Bool.false_eq_true, if_false]
          exact ih ys kb_dict

/-- A list of documents that all lack the id leaves any dict unchanged. -/
lemma aggLoop_all_keyless : ∀ (documents : List Json),
    (∀ doc ∈ documents, kbField doc = some none) →
    ∀ kb_dict, aggLoop documents kb_dict = some kb_dict := by
  intro documents
  induction documents with
  | nil => intro _ kb_dict; rfl
  | cons d rest ih =>
    intro h kb_dict
    rw [aggLoop_skip_absent (h d (by simp))]
    exact ih (fun x hx => h x (by simp [hx])) kb_dict

/-! ## Claim theorems about the aggregation -/

/-- C1: for every document list on which the aggregation completes, the
output is exactly the spec-side description: one summary per distinct
truthy `metadata.knowledgeBase_id` (distinctness by Python equality), the
first document encountered for an id determines the summary's title
(defaulting to "Unknown Title" when `kb_title` is absent) and
creation_time (defaulting to "Unknown Time" when `kb_creation_time` is
absent), with no merging from later duplicates, ordered by first
occurrence of each id. -/
theorem agg_one_summary_per_first_truthy_id (documents out : List Json)
    (h : list_knowledge_bases_agg documents = some out) :
    out = specKbSummaries documents [] :=
  agg_eq_spec h

/-- Witness for C1: the spec's own worked example — two documents with id
"kb1" (titles "T1" then "T2") followed by one with id "kb2" and no title
aggregate to the "T1" summary and an untitled "kb2" summary, in order. -/
theorem agg_one_summary_per_first_truthy_id_witness :
    [Json.obj [("knowledgeBase_id", Json.str "kb1"), ("title", Json.str "T1"),
               ("creation_time", Json.str "Unknown Time")],
     Json.obj [("knowledgeBase_id", Json.str "kb2"), ("title", Json.str "Unknown Title"),
               ("creation_time", Json.str "Unknown Time")]]
    = specKbSummaries
        [Json.obj [("metadata", Json.obj [("knowledgeBase_id", Json.str "kb1"),
                                          ("kb_title", Json.str "T1")])],
         Json.obj [("metadata", Json.obj [("knowledgeBase_id", Json.str "kb1"),
                                          ("kb_title", Json.str "T2")])],
         Json.obj [("metadata", Json.obj [("knowledgeBase_id", Json.str "kb2")])]] [] :=
  agg_one_summary_per_first_truthy_id _ _ rfl

/-- C4: aggregating the same document list twice yields identical summary
sequences in identical order — the aggregation is a pure function of the
document list with no retained state between runs. -/
theorem agg_deterministic (documents : List Json) :
    list_knowledge_bases_agg documents = list_knowledge_bases_agg documents := rfl

/-- C5: a document whose metadata mapping lacks the `knowledgeBase_id`
key contributes no summary (removing it anywhere leaves the output
unchanged), and a list consisting only of such documents aggregates to
the empty sequence. -/
theorem keyless_docs_no_summary :
    (∀ xs ys doc, kbField doc = some none →
      list_knowledge_bases_agg (xs ++ doc :: ys) = list_knowledge_bases_agg (xs ++ ys)) ∧
    (∀ documents, (∀ doc ∈ documents, kbField doc = some none) →
      list_knowledge_bases_agg documents = some []) := by
  constructor
  · intro xs ys doc h
    unfold list_knowledge_bases_agg
    rw [aggLoop_insert_skip (aggLoop_skip_absent h) xs ys]
  · intro documents h
    unfold list_knowledge_bases_agg
    rw [aggLoop_all_keyless documents h []]
    rfl

/-- Witness for C5: a single document with metadata lacking the id key is
removable, and on its own aggregates to the empty sequence. -/
theorem keyless_docs_no_summary_witness :
    list_knowledge_bases_agg
        ([] ++ Json.obj [("metadata", Json.obj [("organization_id", Json.str "42")])] :: [])
      = list_knowledge_bases_agg ([] ++ []) ∧
    list_knowledge_bases_agg
        [Json.obj [("metadata", Json.obj [("organization_id", Json.str "42")])]] = some [] := by
  constructor
  · exact keyless_docs_no_summary.1 [] [] _ rfl
  · exact keyless_docs_no_summary.2 _
      (by intro doc hd; rw [List.mem_singleton] at hd; subst hd; rfl)

/-- C9: a document whose metadata carries `knowledgeBase_id` with a falsy
value (empty string, null, false, 0, empty list or dict) contributes no
summary, exactly like an absent id; in particular the empty string and
null are falsy. -/
theorem falsy_kb_id_no_summary :
    (∀ xs ys doc v, kbField doc = some (some v) → truthy v = false →
      list_knowledge_bases_agg (xs ++ doc :: ys) = list_knowledge_bases_agg (xs ++ ys)) ∧
    truthy (Json.str "") = false ∧ truthy Json.null = false := by
  refine ⟨?_, rfl, rfl⟩
  intro xs ys doc v h hv
  unfold list_knowledge_bases_agg
  rw [aggLoop_insert_skip (aggLoop_skip_falsy h hv) xs ys]

/-- Witness for C9: a document carrying the empty-string id is removable
in front of a document carrying a real id. -/
theorem falsy_kb_id_no_summary_witness :
    list_knowledge_bases_agg
        ([] ++ Json.obj [("metadata", Json.obj [("knowledgeBase_id", Json.str "")])]
           :: [Json.obj [("metadata", Json.obj [("knowledgeBase_id", Json.str "kb9")])]])
      = list_knowledge_bases_agg
        ([] ++ [Json.obj [("metadata", Json.obj [("knowledgeBase_id", Json.str "kb9")])]]) :=
  falsy_kb_id_no_summary.1 [] _ _ (Json.str "") rfl rfl

/-! ## Model of json.dumps (default options: ensure_ascii, separators ", " and ": ") -/

/-- Lower-case hexadecimal digit, as produced by Python's `'%04x'`. -/
def hexDigit (n : Nat) : Char :=
  if n < 10 then Char.ofNat (48 + n) else Char.ofNat (87 + n)

/-- Four-digit hexadecimal rendering of a code unit. -/
def hex4 (n : Nat) : List Char :=
  [hexDigit (n / 4096 % 16), hexDigit (n / 256 % 16), hexDigit (n / 16 % 16), hexDigit (n % 16)]

/-- Escape of one character, following `json.dumps` with its default
`ensure_ascii=True`: quote, backslash and the five short escapes get
two-character forms, every other character outside `0x20..0x7e` is
emitted as a `\u` sequence, with a surrogate pair above `0xFFFF`. -/
def escChar (c : Char) : List Char :=
  if c = '"' then ['\\', '"']
  else if c = '\\' then ['\\', '\\']
  else if c = '\n' then ['\\', 'n']
  else if c = '\r' then ['\\', 'r']
  else if c = '\t' then ['\\', 't']
  else if c = '\x08' then ['\\', 'b']
  else if c = '\x0c' then ['\\', 'f']
  else if c.toNat < 0x20 then '\\' :: 'u' :: hex4 c.toNat
  else if c.toNat < 0x7f then [c]
  else if c.toNat < 0x10000 then '\\' :: 'u' :: hex4 c.toNat
  else
    ('\\' :: 'u' :: hex4 (0xD800 + (c.toNat - 0x10000) / 0x400))
      ++ ('\\' :: 'u' :: hex4 (0xDC00 + (c.toNat - 0x10000) % 0x400))

/-- Escape of a character sequence. -/
def encChars : List Char → List Char
  | [] => []
  | c :: cs => escChar c ++ encChars cs

/-- A JSON string literal, quotes included. -/
def dumpStringL (s : String) : List Char := '"' :: (encChars s.data ++ ['"'])

mutual

/-- Serialization of a JSON value as Python's `json.dumps` renders it
with default options. -/
def dumpL : Json → List Char
  | Json.null => ['n', 'u', 'l', 'l']
  | Json.bool true => ['t', 'r', 'u', 'e']
  | Json.bool false => ['f', 'a', 'l', 's', 'e']
  | Json.num n => (toString n).data
  | Json.str s => dumpStringL s
  | Json.arr l => '[' :: (dumpElems l ++ [']'])
  | Json.obj l => '\x7b' :: (dumpMembers l ++ ['\x7d'])

/-- Array elements joined by ", ". -/
def dumpElems : List Json → List Char
  | [] => []
  | [x] => dumpL x
  | x :: xs => dumpL x ++ (',' :: ' ' :: dumpElems xs)

/-- Object members joined by ", ", each key separated from its value
by ": ". -/
def dumpMembers : List (String × Json) → List Char
  | [] => []
  | [(k, v)] => dumpStringL k ++ (':' :: ' ' :: dumpL v)
  | (k, v) :: xs => dumpStringL k ++ (':' :: ' ' :: dumpL v) ++ (',' :: ' ' :: dumpMembers xs)

end

/-- Model of `json.dumps` with default options. -/
def dumps (j : Json) : String := String.mk (dumpL j)

/-! ## Model of json.loads -/

/-- JSON whitespace accepted between tokens. -/
def isJsonWs (c : Char) : Bool := c = ' ' || c = '\t' || c = '\n' || c = '\r'

/-- Skip inter-token whitespace. -/
def skipWs (s : List Char) : List Char := s.dropWhile isJsonWs

/-- Value of one hexadecimal digit. -/
def hexVal (c : Char) : Option Nat :=
  if '0' ≤ c ∧ c ≤ '9' then some (c.toNat - 48)
  else if 'a' ≤ c ∧ c ≤ 'f' then some (c.toNat - 87)
  else if 'A' ≤ c ∧ c ≤ 'F' then some (c.toNat - 55)
  else none

/-- Value of a four-digit hexadecimal escape. -/
def hex4Val (a b c d : Char) : Option Nat :=
  match hexVal a, hexVal b, hexVal c, hexVal d with
  | some x, some y, some z, some w => some (x * 4096 + y * 256 + z * 16 + w)
  | _, _, _, _ => none

/-- Decoding of a single-character escape sequence. -/
def escDecode (e : Char) : Option Char :=
  if e = '"' then some '"'
  else if e = '\\' then some '\\'
  else if e = '/' then some '/'
  else if e = 'n' then some '\n'
  else if e = 'r' then some '\r'
  else if e = 't' then some '\t'
  else if e = 'b' then some '\x08'
  else if e = 'f' then some '\x0c'
  else none

/-- Parse the body of a JSON string literal (after the opening quote),
returning the decoded characters and the remaining input.  Lone
surrogates — which Python reads into surrogate code points — are not
representable as Lean characters and are rejected instead. -/
def parseStringBody : Nat → List Char → Option (List Char × List Char)
  | 0, _ => none
  | _ + 1, [] => none
  | fuel + 1, c :: rest =>
    if c = '"' then some ([], rest)
    else if c = '\\' then
      match rest with
      | [] => none
      | e :: rest2 =>
        match escDecode e with
        | some d => (parseStringBody fuel rest2).map (fun p => (d :: p.1, p.2))
        | none =>
          if e = 'u' then
            match rest2 with
            | a :: b :: c2 :: d :: rest3 =>
              match hex4Val a b c2 d with
              | none => none
              | some n =>
                if 0xD800 ≤ n ∧ n < 0xDC00 then
                  match rest3 with
                  | b1 :: b2 :: a2 :: b3 :: c3 :: d2 :: rest4 =>
                    if b1 = '\\' ∧ b2 = 'u' then
                      match hex4Val a2 b3 c3 d2 with
                      | none => none
                      | some m =>
                        if 0xDC00 ≤ m ∧ m < 0xE000 then
                          (parseStringBody fuel rest4).map (fun p =>
                            (Char.ofNat (0x10000 + (n - 0xD800) * 0x400 + (m - 0xDC00)) :: p.1, p.2))
                        else none
                    else none
                  | _ => none
                else if 0xDC00 ≤ n ∧ n < 0xE000 then none
                else (parseStringBody fuel rest3).map (fun p => (Char.ofNat n :: p.1, p.2))
            | _ => none
          else none
    else if c.toNat < 0x20 then none
    else (parseStringBody fuel rest).map (fun p => (c :: p.1, p.2))

/-- Accumulate decimal digits. -/
def digitsToNat (acc : Nat) : List Char → Nat
  | [] => acc
  | c :: cs => digitsToNat (acc * 10 + (c.toNat - 48)) cs

/-- Parse an integer literal.  Fractional and exponent forms are not
modelled: no payload in scope carries them (a trailing `.` or `e` is left
unconsumed and makes the whole parse fail). -/
def parseNumber (s : List Char) : Option (Json × List Char) :=
  match s with
  | '-' :: r =>
    let ds := r.takeWhile Char.isDigit
    if ds.isEmpty then none
    else some (Json.num (-(digitsToNat 0 ds : Int)), r.dropWhile Char.isDigit)
  | _ =>
    let ds := s.takeWhile Char.isDigit
    if ds.isEmpty then none
    else some (Json.num (digitsToNat 0 ds : Int), s.dropWhile Char.isDigit)

/-- Insert a parsed member as Python's dict building does: a repeated key
keeps its first position but takes the later value (`l` holds the members
parsed after this one). -/
def addMember (k : String) (v : Json) (l : List (String × Json)) : List (String × Json) :=
  match l.find? (fun p => p.1 == k) with
  | some p => (k, p.2) :: l.filter (fun q => !(q.1 == k))
  | none => (k, v) :: l

/-- String-literal parsing at a call site: the fuel is taken from the
input length, which always suffices since every decoded character
consumes at least one input character. -/
def parseJString (r : List Char) : Option (List Char × List Char) :=
  parseStringBody (r.length + 1) r

mutual

/-- Parse one JSON value.  The fuel argument only bounds recursion depth;
`loads` passes enough for any input it hands over. -/
def parseValue : Nat → List Char → Option (Json × List Char)
  | 0, _ => none
  | fuel + 1, s =>
    match s with
    | [] => none
    | c :: r =>
      if c = 'n' then
        match r with
        | c1 :: c2 :: c3 :: r2 => if c1 = 'u' ∧ c2 = 'l' ∧ c3 = 'l' then some (Json.null, r2) else none
        | _ => none
      else if c = 't' then
        match r with
        | c1 :: c2 :: c3 :: r2 => if c1 = 'r' ∧ c2 = 'u' ∧ c3 = 'e' then some (Json.bool true, r2) else none
        | _ => none
      else if c = 'f' then
        match r with
        | c1 :: c2 :: c3 :: c4 :: r2 =>
          if c1 = 'a' ∧ c2 = 'l' ∧ c3 = 's' ∧ c4 = 'e' then some (Json.bool false, r2) else none
        | _ => none
      else if c = '"' then (parseJString r).map (fun p => (Json.str (String.mk p.1), p.2))
      else if c = '[' then
        match skipWs r with
        | c1 :: r2 =>
          if c1 = ']' then some (Json.arr [], r2)
          else (parseElems fuel (c1 :: r2)).map (fun p => (Json.arr p.1, p.2))
        | [] => none
      else if c = '\x7b' then
        match skipWs r with
        | c1 :: r2 =>
          if c1 = '\x7d' then some (Json.obj [], r2)
          else (parseMembers fuel (c1 :: r2)).map (fun p => (Json.obj p.1, p.2))
        | [] => none
      else parseNumber (c :: r)

/-- Parse the comma-separated elements of a non-empty array, up to and
including the closing bracket. -/
def parseElems : Nat → List Char → Option (List Json × List Char)
  | 0, _ => none
  | fuel + 1, s =>
    match parseValue fuel s with
    | none => none
    | some (v, r) =>
      match skipWs r with
      | c1 :: r2 =>
        if c1 = ',' then (parseElems fuel (skipWs r2)).map (fun p => (v :: p.1, p.2))
        else if c1 = ']' then some ([v], r2)
        else none
      | [] => none

/-- Parse the members of a non-empty object, up to and including the
closing brace. -/
def parseMembers : Nat → List Char → Option (List (String × Json) × List Char)
  | 0, _ => none
  | fuel + 1, s =>
    match s with
    | c0 :: r =>
      if c0 = '"' then
        match parseJString r with
        | none => none
        | some (k, r2) =>
          match skipWs r2 with
          | c1 :: r3 =>
            if c1 = ':' then
              match parseValue fuel (skipWs r3) with
              | none => none
              | some (v, r4) =>
                match skipWs r4 with
                | c2 :: r5 =>
                  if c2 = ',' then
                    (parseMembers fuel (skipWs r5)).map (fun p => (addMember (String.mk k) v p.1, p.2))
                  else if c2 = '\x7d' then some ([(String.mk k, v)], r5)
                  else none
                | [] => none
            else none
          | [] => none
      else none
    | [] => none

end

/-- Model of `json.loads`: parse one JSON value surrounded by optional
whitespace. -/
def loads (s : String) : Option Json :=
  let cs := skipWs s.data
  match parseValue (cs.length + 1) cs with
  | some (j, rest) => if skipWs rest = [] then some j else none
  | none => none

/-! ## Roundtrip of the string escaping -/

lemma hexVal_hexDigit (d : Nat) (h : d < 16) : hexVal (hexDigit d) = some d := by
  interval_cases d <;> rfl

lemma hex4Val_hex4 (n : Nat) (h : n < 65536) :
    hex4Val (hexDigit (n / 4096 % 16)) (hexDigit (n / 256 % 16))
      (hexDigit (n / 16 % 16)) (hexDigit (n % 16)) = some n := by
  unfold hex4Val
  rw [hexVal_hexDigit _ (Nat.mod_lt _ (by norm_num)),
      hexVal_hexDigit _ (Nat.mod_lt _ (by norm_num)),
      hexVal_hexDigit _ (Nat.mod_lt _ (by norm_num)),
      hexVal_hexDigit _ (Nat.mod_lt _ (by norm_num))]
  simp only [Option.some.injEq]
  omega

/-- The validity invariant of a Lean character, at the `Nat` level. -/
lemma char_toNat_valid (c : Char) :
    c.toNat < 0xd800 ∨ (0xdfff < c.toNat ∧ c.toNat < 0x110000) := by
  rcases c.valid with h | ⟨h1, h2⟩
  · left
    simpa [UInt32.lt_def, BitVec.lt_def, Char.toNat, UInt32.toNat] using h
  · right
    refine ⟨?_, ?_⟩
    · simpa [UInt32.lt_def, BitVec.lt_def, Char.toNat, UInt32.toNat] using h1
    · simpa [UInt32.lt_def, BitVec.lt_def, Char.toNat, UInt32.toNat] using h2

/-- Decoding inverts the `json.dumps` escaping, one string body at a
time: the escaped characters followed by the closing quote and anything
else parse back to the original characters, leaving the rest. -/
lemma parseStringBody_encChars : ∀ (s : List Char) (fuel : Nat) (rest : List Char),
    s.length < fuel →
    parseStringBody fuel (encChars s ++ '"' :: rest) = some (s, rest) := by
  intro s
  induction s with
  | nil =>
    intro fuel rest hf
    obtain ⟨f, rfl⟩ : ∃ f, fuel = f + 1 := ⟨fuel - 1, by omega⟩
    simp [encChars, parseStringBody]
  | cons c cs ih =>
    intro fuel rest hf
    obtain ⟨f, rfl⟩ : ∃ f, fuel = f + 1 := ⟨fuel - 1, by omega⟩
    have ihr := fun rest => ih f rest (by simp at hf; omega)
    by_cases h1 : c = '"'
    · subst h1; simp [encChars, escChar, escDecode, parseStringBody, List.append_assoc, ihr rest]
    by_cases h2 : c = '\\'
    · subst h2; simp [encChars, escChar, escDecode, parseStringBody, List.append_assoc, ihr rest]
    by_cases h3 : c = '\n'
    · subst h3; simp [encChars, escChar, escDecode, parseStringBody, List.append_assoc, ihr rest]
    by_cases h4 : c = '\r'
    · subst h4; simp [encChars, escChar, escDecode, parseStringBody, List.append_assoc, ihr rest]
    by_cases h5 : c = '\t'
    · subst h5; simp [encChars, escChar, escDecode, parseStringBody, List.append_assoc, ihr rest]
    by_cases h6 : c = '\x08'
    · subst h6; simp [encChars, escChar, escDecode, parseStringBody, List.append_assoc, ihr rest]
    by_cases h7 : c = '\x0c'
    · subst h7; simp [encChars, escChar, escDecode, parseStringBody, List.append_assoc, ihr rest]
    by_cases hc20 : c.toNat < 0x20
    · have hhex := hex4Val_hex4 c.toNat (by omega)
      have hns1 : ¬(0xD800 ≤ c.toNat ∧ c.toNat < 0xDC00) := by omega
      have hns2 : ¬(0xDC00 ≤ c.toNat ∧ c.toNat < 0xE000) := by omega
      simp [encChars, escChar, escDecode, parseStringBody, hex4, List.append_assoc, h1, h2,
        h3, h4, h5, h6, h7, hc20, hhex, hns1, hns2, Char.ofNat_toNat, ihr rest]
    by_cases h7f : c.toNat < 0x7f
    · simp [encChars, escChar, parseStringBody, List.append_assoc, h1, h2, h3, h4,
        h5, h6, h7, hc20, h7f, ihr rest]
    by_cases hbmp : c.toNat < 0x10000
    · have hv := char_toNat_valid c
      have hhex := hex4Val_hex4 c.toNat (by omega)
      have hns1 : ¬(0xD800 ≤ c.toNat ∧ c.toNat < 0xDC00) := by omega
      have hns2 : ¬(0xDC00 ≤ c.toNat ∧ c.toNat < 0xE000) := by omega
      simp [encChars, escChar, escDecode, parseStringBody, hex4, List.append_assoc, h1, h2,
        h3, h4, h5, h6, h7, hc20, h7f, hbmp, hhex, hns1, hns2, Char.ofNat_toNat, ihr rest]
    · have hv := char_toNat_valid c
      have hhi := hex4Val_hex4 (0xD800 + (c.toNat - 0x10000) / 0x400) (by omega)
      have hlo := hex4Val_hex4 (0xDC00 + (c.toNat - 0x10000) % 0x400) (by omega)
      have hs1 : 0xD800 ≤ 0xD800 + (c.toNat - 0x10000) / 0x400
          ∧ 0xD800 + (c.toNat - 0x10000) / 0x400 < 0xDC00 := by omega
      have hs2 : 0xDC00 ≤ 0xDC00 + (c.toNat - 0x10000) % 0x400
          ∧ 0xDC00 + (c.toNat - 0x10000) % 0x400 < 0xE000 := by omega
      have harith : 0x10000 + (c.toNat - 0x10000) / 0x400 * 0x400
          + (c.toNat - 0x10000) % 0x400 = c.toNat := by omega
      have hesc : escChar c = ('\\' :: 'u' :: hex4 (0xD800 + (c.toNat - 0x10000) / 0x400))
          ++ ('\\' :: 'u' :: hex4 (0xDC00 + (c.toNat - 0x10000) % 0x400)) := by
        simp [escChar, h1, h2, h3, h4, h5, h6, h7, hc20, h7f, hbmp]
      rw [encChars, hesc]
      simp only [hex4, List.cons_append, List.append_assoc, List.nil_append]
      rw [parseStringBody]
      simp only [escDecode, hhi, hlo, hs1, hs2, harith, Char.ofNat_toNat, ihr rest]
      simp [hs1, hs2, harith, Char.ofNat_toNat, ihr rest]

set_option maxHeartbeats 1600000 in
/-- Every character contributes at least one escaped character. -/
lemma encChars_length (s : List Char) : s.length ≤ (encChars s).length := by
  induction s with
  | nil => simp [encChars]
  | cons c cs ih =>
    have h1 : 1 ≤ (escChar c).length := by
      unfold escChar
      split_ifs <;> simp [hex4]
    simp only [encChars, List.length_append, List.length_cons]
    omega

/-- The call-site form of the string roundtrip: the input-length fuel is
always sufficient. -/
lemma parseJString_enc (s rest : List Char) :
    parseJString (encChars s ++ '"' :: rest) = some (s, rest) := by
  unfold parseJString
  refine parseStringBody_encChars s _ rest ?_
  have := encChars_length s
  simp only [List.length_append, List.length_cons]
  omega

lemma skipWs_cons (c : Char) (t : List Char) (h : isJsonWs c = false) :
    skipWs (c :: t) = c :: t := by
  simp [skipWs, List.dropWhile, h]

lemma skipWs_space (t : List Char) : skipWs (' ' :: t) = skipWs t := by
  simp [skipWs, List.dropWhile, isJsonWs]

lemma string_mk_data (s : String) : String.mk s.data = s := rfl

lemma string_data_mk (l : List Char) : (String.mk l).data = l := rfl

/-- Parsing the members of a rendered two-member object with string
values and distinct keys. -/
lemma parseMembers_two (f : Nat) (k1 k2 s1 s2 : String) (tail : List Char)
    (hk : (k2 == k1) = false) :
    parseMembers (f + 3)
      ('"' :: (encChars k1.data ++ '"' :: ':' :: ' ' :: '"' ::
        (encChars s1.data ++ '"' :: ',' :: ' ' :: '"' ::
          (encChars k2.data ++ '"' :: ':' :: ' ' :: '"' ::
            (encChars s2.data ++ '"' :: '\x7d' :: tail)))))
      = some ([(k1, Json.str s1), (k2, Json.str s2)], tail) := by
  simp [parseMembers, parseValue, parseJString_enc, skipWs_cons, skipWs_space, isJsonWs,
    string_mk_data, addMember, hk]

/-- Parsing a rendered two-member object with string values. -/
lemma parseValue_obj_two (f : Nat) (k1 k2 s1 s2 : String) (tail : List Char)
    (hk : (k2 == k1) = false) :
    parseValue (f + 4)
      ('\x7b' :: '"' :: (encChars k1.data ++ '"' :: ':' :: ' ' :: '"' ::
        (encChars s1.data ++ '"' :: ',' :: ' ' :: '"' ::
          (encChars k2.data ++ '"' :: ':' :: ' ' :: '"' ::
            (encChars s2.data ++ '"' :: '\x7d' :: tail)))))
      = some (Json.obj [(k1, Json.str s1), (k2, Json.str s2)], tail) := by
  have hm := parseMembers_two f k1 k2 s1 s2 tail hk
  simp [parseValue, skipWs_cons, isJsonWs, hm]

/-- `json.loads` inverts `json.dumps` on a two-member object with string
values and distinct keys — the shape of the ingest metadata. -/
lemma loads_dumps_two_string_obj (k1 k2 s1 s2 : String) (hk : (k2 == k1) = false) :
    loads (dumps (Json.obj [(k1, Json.str s1), (k2, Json.str s2)]))
      = some (Json.obj [(k1, Json.str s1), (k2, Json.str s2)]) := by
  have hd : (dumps (Json.obj [(k1, Json.str s1), (k2, Json.str s2)])).data
      = '\x7b' :: '"' :: (encChars k1.data ++ '"' :: ':' :: ' ' :: '"' ::
          (encChars s1.data ++ '"' :: ',' :: ' ' :: '"' ::
            (encChars k2.data ++ '"' :: ':' :: ' ' :: '"' ::
              (encChars s2.data ++ '"' :: '\x7d' :: [])))) := by
    simp [dumps, dumpL, dumpMembers, dumpStringL, string_data_mk, List.append_assoc]
  simp only [loads, hd]
  rw [skipWs_cons _ _ (by simp [isJsonWs])]
  obtain ⟨f, hf⟩ : ∃ f, ('\x7b' :: '"' :: (encChars k1.data ++ '"' :: ':' :: ' ' :: '"' ::
      (encChars s1.data ++ '"' :: ',' :: ' ' :: '"' ::
        (encChars k2.data ++ '"' :: ':' :: ' ' :: '"' ::
          (encChars s2.data ++ '"' :: '\x7d' :: []))))).length + 1 = f + 4 := by
    refine ⟨('\x7b' :: '"' :: (encChars k1.data ++ '"' :: ':' :: ' ' :: '"' ::
      (encChars s1.data ++ '"' :: ',' :: ' ' :: '"' ::
        (encChars k2.data ++ '"' :: ':' :: ' ' :: '"' ::
          (encChars s2.data ++ '"' :: '\x7d' :: []))))).length - 3, ?_⟩
    simp only [List.length_cons, List.length_append]
    omega
  rw [hf, parseValue_obj_two f k1 k2 s1 s2 [] hk]
  simp [skipWs]

/-! ## Endpoint payload construction (src/main.py) -/

/-- Line 12. -/
def BASE_URL : String := "https://api.ragie.ai"

/-- Lookup in a string-valued form mapping. -/
def formGet (k : String) (l : List (String × String)) : Option String :=
  (l.find? (fun p => p.1 == k)).map (fun p => p.2)

/-- Lines 176-190 of `list_documents_endpoint`: the metadata filter.
`str()` on the inputs is the identity since both query parameters are
strings; `if kb_id_str:` is Python truthiness, so a missing id and an
empty-string id both take the organization-only branch. -/
def list_documents_filter (organization_id : String) (knowledgeBase_id : Option String) : Json :=
  let org_id_str := organization_id
  let kb_id_str := knowledgeBase_id
  match kb_id_str with
  | some k =>
    if k ≠ "" then
      Json.obj [("$and", Json.arr
        [Json.obj [("organization_id", Json.obj [("$eq", Json.str org_id_str)])],
         Json.obj [("knowledgeBase_id", Json.obj [("$eq", Json.str k)])]])]
    else
      Json.obj [("organization_id", Json.obj [("$eq", Json.str org_id_str)])]
  | none => Json.obj [("organization_id", Json.obj [("$eq", Json.str org_id_str)])]

/-- Line 193: `params = \x7b"filter": json.dumps(filter_query)\x7d`. -/
def list_documents_params (organization_id : String) (knowledgeBase_id : Option String) :
    List (String × String) :=
  [("filter", dumps (list_documents_filter organization_id knowledgeBase_id))]

/-- Lines 115-118 of `ingest_document_endpoint`: the metadata dict. -/
def ingest_metadata (organization_id knowledgeBase_id : String) : Json :=
  Json.obj [("organization_id", Json.str organization_id),
            ("knowledgeBase_id", Json.str knowledgeBase_id)]

/-- Lines 121-131: the multipart form fields.  The three optional fields
are FastAPI form fields defaulting to the empty string, each added only
when truthy (non-empty). -/
def ingest_form_data (organization_id knowledgeBase_id external_id name partition : String) :
    List (String × String) :=
  let data := [("mode", "fast"),
               ("metadata", dumps (ingest_metadata organization_id knowledgeBase_id))]
  let data := if external_id ≠ "" then data ++ [("external_id", external_id)] else data
  let data := if name ≠ "" then data ++ [("name", name)] else data
  if partition ≠ "" then data ++ [("partition", partition)] else data

/-! ## get_api_response (src/main.py, lines 18-84) -/

/-- An upstream HTTP response as the requests library exposes it: status
code, decoded body text, and the reason phrase used in the text of the
HTTPError that `raise_for_status` builds. -/
structure HttpResp where
  status : Nat
  body : String
  reason : String

/-- A `requests.exceptions.RequestException`.  Every such exception
object carries a `response` attribute — set to `None` when no response
exists — so `hasattr(e, "response")` is always true; `text` is `str(e)`. -/
structure ReqException where
  response : Option HttpResp
  text : String

/-- Outcome of the transport call itself (`requests.get/post/delete`):
either a response object, or a raised `RequestException`. -/
inductive TransportResult where
  | success : HttpResp → TransportResult
  | failure : ReqException → TransportResult

/-- The `error_detail` value interpolated into the
`"Error from Ragie API: ..."` message on line 83. -/
inductive ErrorDetail where
  | exnText : String → ErrorDetail
  | jsonBody : Json → ErrorDetail
  | rawText : String → ErrorDetail

/-- How a call to `get_api_response` terminates. -/
inductive ApiOutcome where
  | ok : Json → ApiOutcome
  | httpException : Nat → ErrorDetail → ApiOutcome
  | valueError : String → ApiOutcome
  | attributeError : ApiOutcome

/-- `Response.raise_for_status` raises exactly for status codes in
`400..599`. -/
def raisesForStatus (status : Nat) : Bool := 400 ≤ status && status < 600

/-- The text of the `HTTPError` built by `raise_for_status`:
`"<status> Client|Server Error: <reason> for url: <url>"`.  The body is
not part of it. -/
def httpErrorText (url : String) (r : HttpResp) : String :=
  toString r.status ++ (if r.status < 500 then " Client Error: " else " Server Error: ")
    ++ r.reason ++ " for url: " ++ url

/-- Truthiness of a `requests.Response`: `Response.__bool__` returns
`self.ok`, i.e. whether `raise_for_status` would not raise. -/
def responseTruthy (r : HttpResp) : Bool := !raisesForStatus r.status

/-- Lines 69-84, the `except requests.exceptions.RequestException`
branch.  `error_detail` starts as `str(e)` and is replaced by the parsed
or raw body only when `e.response` exists and is truthy (line 76); the
status-code expression on line 82 guards only on `hasattr(e, "response")`
— always true — so when `e.response` is `None` the attribute access
`e.response.status_code` raises an `AttributeError` and the literal 500
default is never produced. -/
def exceptBranch (e : ReqException) : ApiOutcome :=
  let error_detail : ErrorDetail :=
    match e.response with
    | some r =>
      if responseTruthy r then
        match loads r.body with
        | some j => ErrorDetail.jsonBody j
        | none => ErrorDetail.rawText r.body
      else ErrorDetail.exnText e.text
    | none => ErrorDetail.exnText e.text
  match e.response with
  | some r => ApiOutcome.httpException r.status error_detail
  | none => ApiOutcome.attributeError

/-- Python `str.upper`, which is the identity outside `a..z` for the
ASCII method names in scope. -/
def pyUpper (s : String) : String := String.mk (s.data.map Char.toUpper)

/-- The whitespace characters stripped by Python `str.strip()`. -/
def pyIsSpace (c : Char) : Bool :=
  c = ' ' || c = '\t' || c = '\n' || c = '\r' || c = '\x0b' || c = '\x0c'

/-- Truthiness of `response.text.strip()` on line 62: some
non-whitespace character remains. -/
def strippedNonEmpty (s : String) : Bool := s.data.any (fun c => !pyIsSpace c)

/-- Lines 18-84: control flow of `get_api_response`.  The transport call
is abstracted by `transport`: what the `requests` call would produce if
issued.  The returned flag records whether an outbound request was made.
An unsupported method raises a `ValueError` (line 53) before any request;
the `except` clause catches only `RequestException`, so the `ValueError`
escapes as-is.  A non-raising response with a body that does not parse as
JSON raises `requests.exceptions.JSONDecodeError` from line 63 — a
`RequestException` carrying no response — which the except branch turns
into the `AttributeError` described above; the exception text is
abbreviated here since nothing downstream reads it. -/
def get_api_response (url method : String) (transport : TransportResult) : ApiOutcome × Bool :=
  if pyUpper method = "GET" ∨ pyUpper method = "POST" ∨ pyUpper method = "DELETE" then
    match transport with
    | TransportResult.failure e => (exceptBranch e, true)
    | TransportResult.success r =>
      if raisesForStatus r.status then
        (exceptBranch ⟨some r, httpErrorText url r⟩, true)
      else if strippedNonEmpty r.body then
        match loads r.body with
        | some j => (ApiOutcome.ok j, true)
        | none => (exceptBranch ⟨none, "Expecting value"⟩, true)
      else (ApiOutcome.ok (Json.obj []), true)
  else (ApiOutcome.valueError ("Unsupported HTTP method: " ++ method), false)

/-- Lines 141-148: the delete endpoint delegates to `get_api_response`
with method DELETE against `BASE_URL/documents/<id>`. -/
def delete_document_endpoint (document_id : String) (transport : TransportResult) :
    ApiOutcome × Bool :=
  get_api_response (BASE_URL ++ "/documents/" ++ document_id) "DELETE" transport

/-! ## Claim theorems about the gateway client and payloads -/

/-- C2 (failing case): on a transport failure with no attached response —
the unreachable-upstream case the claim covers with "defaults to 500" —
`get_api_response` does not raise the normalized 500 gateway error.
`hasattr(e, "response")` is true for every requests exception, so line 82
evaluates `e.response.status_code` with `e.response = None` and raises an
uncaught `AttributeError` instead. -/
theorem unreachable_upstream_attribute_error :
    get_api_response (BASE_URL ++ "/documents") "GET"
        (TransportResult.failure ⟨none, "Connection refused"⟩)
      = (ApiOutcome.attributeError, true) := by rfl

/-- C3 (failing case): a delete answered by an upstream 404 with body
`\x7b"detail": "document not found"\x7d` raises an HTTPException that does
carry status 404, but whose detail is `str(e)` — the `raise_for_status`
text, which does not contain the body — because line 76's
`if hasattr(e, "response") and e.response:` is false for any response
with status 400 or above (`Response.__bool__` is `status < 400`), so the
body-extraction branch is unreachable exactly when an HTTP error
occurred. -/
theorem delete_404_detail_is_exception_text :
    delete_document_endpoint "doc1"
        (TransportResult.success ⟨404, "\x7b\"detail\": \"document not found\"\x7d", "NOT FOUND"⟩)
      = (ApiOutcome.httpException 404
          (ErrorDetail.exnText "404 Client Error: NOT FOUND for url: https://api.ragie.ai/documents/doc1"),
         true) := by rfl

/-- C8: when the upstream call succeeds with a 2xx status, a
whitespace-only body yields the empty mapping with no parse attempt, and
a non-blank body that parses as JSON is returned parsed. -/
theorem success_body_handling (url method : String) (r : HttpResp) (j : Json)
    (hm : pyUpper method = "GET" ∨ pyUpper method = "POST" ∨ pyUpper method = "DELETE")
    (hs : 200 ≤ r.status ∧ r.status < 300) :
    (strippedNonEmpty r.body = false →
      get_api_response url method (TransportResult.success r)
        = (ApiOutcome.ok (Json.obj []), true)) ∧
    (strippedNonEmpty r.body = true → loads r.body = some j →
      get_api_response url method (TransportResult.success r)
        = (ApiOutcome.ok j, true)) := by
  have h1 : ¬(400 ≤ r.status) := by omega
  have hraise : raisesForStatus r.status = false := by simp [raisesForStatus, h1]
  constructor
  · intro hb
    unfold get_api_response
    rw [if_pos hm]
    simp [hraise, hb]
  · intro hb hj
    unfold get_api_response
    rw [if_pos hm]
    simp [hraise, hb, hj]

/-- Witness for C8: a simulated DELETE answered 204 with an empty body
returns the empty mapping. -/
theorem success_body_handling_witness :
    (strippedNonEmpty "" = false →
      get_api_response "https://api.ragie.ai/documents/doc1" "DELETE"
          (TransportResult.success ⟨204, "", "No Content"⟩)
        = (ApiOutcome.ok (Json.obj []), true)) ∧
    (strippedNonEmpty "" = true → loads "" = some Json.null →
      get_api_response "https://api.ragie.ai/documents/doc1" "DELETE"
          (TransportResult.success ⟨204, "", "No Content"⟩)
        = (ApiOutcome.ok Json.null, true)) :=
  success_body_handling "https://api.ragie.ai/documents/doc1" "DELETE"
    ⟨204, "", "No Content"⟩ Json.null (Or.inr (Or.inr rfl)) (by exact ⟨by norm_num, by norm_num⟩)

/-- C10: a method outside GET/POST/DELETE after upcasing raises a plain
`ValueError` naming the method — not the normalized gateway
HTTPException — and no outbound request is made (second component
false). -/
theorem unsupported_method_value_error (url method : String) (transport : TransportResult)
    (h1 : pyUpper method ≠ "GET") (h2 : pyUpper method ≠ "POST")
    (h3 : pyUpper method ≠ "DELETE") :
    get_api_response url method transport
      = (ApiOutcome.valueError ("Unsupported HTTP method: " ++ method), false) := by
  have hcond : ¬(pyUpper method = "GET" ∨ pyUpper method = "POST"
      ∨ pyUpper method = "DELETE") := by
    rintro (h | h | h)
    exacts [h1 h, h2 h, h3 h]
  unfold get_api_response
  rw [if_neg hcond]

/-- Witness for C10: the method "PATCH". -/
theorem unsupported_method_value_error_witness :
    get_api_response "https://api.ragie.ai/documents" "PATCH"
        (TransportResult.success ⟨200, "", ""⟩)
      = (ApiOutcome.valueError "Unsupported HTTP method: PATCH", false) :=
  unsupported_method_value_error "https://api.ragie.ai/documents" "PATCH"
    (TransportResult.success ⟨200, "", ""⟩) (by decide) (by decide) (by decide)

/-- C6 counterexample: with both parameters given but the knowledge-base
id the empty string, the built filter is the organization-only one, not
the `$and` of two equality predicates. -/
theorem list_documents_filter_empty_kb_counterexample :
    list_documents_filter "42" (some "")
      = Json.obj [("organization_id", Json.obj [("$eq", Json.str "42")])] ∧
    list_documents_filter "42" (some "")
      ≠ Json.obj [("$and", Json.arr
          [Json.obj [("organization_id", Json.obj [("$eq", Json.str "42")])],
           Json.obj [("knowledgeBase_id", Json.obj [("$eq", Json.str "")])]])] := by
  refine ⟨rfl, ?_⟩
  intro h
  simp [list_documents_filter] at h

/-- C6 (amended): list-documents builds the single-predicate equality
filter when the knowledge-base id is absent or empty, and the `$and` of
the two equality predicates when a non-empty knowledge-base id is given;
the filter is serialized with `json.dumps` and sent as the single
`filter` query parameter. -/
theorem list_documents_filter_shape (org k : String) :
    list_documents_params org none
      = [("filter", dumps (Json.obj [("organization_id", Json.obj [("$eq", Json.str org)])]))] ∧
    list_documents_params org (some "")
      = [("filter", dumps (Json.obj [("organization_id", Json.obj [("$eq", Json.str org)])]))] ∧
    (k ≠ "" → list_documents_params org (some k)
      = [("filter", dumps (Json.obj [("$and", Json.arr
          [Json.obj [("organization_id", Json.obj [("$eq", Json.str org)])],
           Json.obj [("knowledgeBase_id", Json.obj [("$eq", Json.str k)])]])]))]) := by
  refine ⟨rfl, by simp [list_documents_params, list_documents_filter], ?_⟩
  intro hk
  simp [list_documents_params, list_documents_filter, hk]

/-- Witness for C6 (amended), at organization id "42" and knowledge-base
id "7". -/
theorem list_documents_filter_shape_witness :
    list_documents_params "42" none
      = [("filter", dumps (Json.obj [("organization_id", Json.obj [("$eq", Json.str "42")])]))] ∧
    list_documents_params "42" (some "")
      = [("filter", dumps (Json.obj [("organization_id", Json.obj [("$eq", Json.str "42")])]))] ∧
    ("7" ≠ "" → list_documents_params "42" (some "7")
      = [("filter", dumps (Json.obj [("$and", Json.arr
          [Json.obj [("organization_id", Json.obj [("$eq", Json.str "42")])],
           Json.obj [("knowledgeBase_id", Json.obj [("$eq", Json.str "7")])]])]))]) :=
  list_documents_filter_shape "42" "7"

/-- C7: for every ingest input, the constructed multipart form carries
mode "fast"; its metadata field is the `json.dumps` serialization of
exactly the two-key mapping of the organization and knowledge-base ids,
and parsing that field back with `json.loads` recovers exactly that
mapping and no other keys; and the external_id, name and partition
fields are present exactly when the corresponding input is non-empty,
carrying it verbatim. -/
theorem ingest_payload_shape
    (organization_id knowledgeBase_id external_id name partition : String) :
    formGet "mode" (ingest_form_data organization_id knowledgeBase_id external_id name partition)
      = some "fast" ∧
    formGet "metadata" (ingest_form_data organization_id knowledgeBase_id external_id name partition)
      = some (dumps (ingest_metadata organization_id knowledgeBase_id)) ∧
    loads (dumps (ingest_metadata organization_id knowledgeBase_id))
      = some (Json.obj [("organization_id", Json.str organization_id),
                        ("knowledgeBase_id", Json.str knowledgeBase_id)]) ∧
    ((formGet "external_id"
        (ingest_form_data organization_id knowledgeBase_id external_id name partition)).isSome
      ↔ external_id ≠ "") ∧
    (external_id ≠ "" → formGet "external_id"
        (ingest_form_data organization_id knowledgeBase_id external_id name partition)
      = some external_id) ∧
    ((formGet "name"
        (ingest_form_data organization_id knowledgeBase_id external_id name partition)).isSome
      ↔ name ≠ "") ∧
    (name ≠ "" → formGet "name"
        (ingest_form_data organization_id knowledgeBase_id external_id name partition)
      = some name) ∧
    ((formGet "partition"
        (ingest_form_data organization_id knowledgeBase_id external_id name partition)).isSome
      ↔ partition ≠ "") ∧
    (partition ≠ "" → formGet "partition"
        (ingest_form_data organization_id knowledgeBase_id external_id name partition)
      = some partition) := by
  have hround : loads (dumps (ingest_metadata organization_id knowledgeBase_id))
      = some (Json.obj [("organization_id", Json.str organization_id),
                        ("knowledgeBase_id", Json.str knowledgeBase_id)]) := by
    unfold ingest_metadata
    exact loads_dumps_two_string_obj "organization_id" "knowledgeBase_id"
      organization_id knowledgeBase_id (by decide)
  by_cases e1 : external_id = "" <;> by_cases e2 : name = "" <;> by_cases e3 : partition = "" <;>
    simp [ingest_form_data, formGet, e1, e2, e3, hround]

/-- Witness for C7 at concrete ingest inputs: organization id "42",
knowledge-base id "7", external id "ext1" and partition "part9" present,
empty name absent. -/
theorem ingest_payload_shape_witness :
    formGet "mode" (ingest_form_data "42" "7" "ext1" "" "part9") = some "fast" ∧
    formGet "metadata" (ingest_form_data "42" "7" "ext1" "" "part9")
      = some (dumps (ingest_metadata "42" "7")) ∧
    loads (dumps (ingest_metadata "42" "7"))
      = some (Json.obj [("organization_id", Json.str "42"),
                        ("knowledgeBase_id", Json.str "7")]) ∧
    ((formGet "external_id" (ingest_form_data "42" "7" "ext1" "" "part9")).isSome
      ↔ "ext1" ≠ "") ∧
    ("ext1" ≠ "" → formGet "external_id" (ingest_form_data "42" "7" "ext1" "" "part9")
      = some "ext1") ∧
    ((formGet "name" (ingest_form_data "42" "7" "ext1" "" "part9")).isSome ↔ "" ≠ "") ∧
    ("" ≠ "" → formGet "name" (ingest_form_data "42" "7" "ext1" "" "part9") = some "") ∧
    ((formGet "partition" (ingest_form_data "42" "7" "ext1" "" "part9")).isSome
      ↔ "part9" ≠ "") ∧
    ("part9" ≠ "" → formGet "partition" (ingest_form_data "42" "7" "ext1" "" "part9")
      = some "part9") :=
  ingest_payload_shape "42" "7" "ext1" "" "part9"

end RagGateway
